import Mathlib

/-!
# k0s cluster configuration: validation of the Helm extensions and of the cluster config

A shallow embedding of `pkg/apis/k0s/v1beta1/extensions.go` and of
`pkg/apis/v1beta1/clusterconfig_types.go`.

Conventions of the embedding:

* a Go `error` value is its message; the nil error is `none`;
* a Go slice is a `Slice`: the nil slice and the non-nil slices are kept apart, since the
  code tells them apart (`rErrs != nil`) and returns nil on purpose;
* a Go pointer is an `Option`; dereferencing nil is the panic `Panic.nilDereference`,
  carried by `Except`;
* functions of other packages that the code calls are parameters of the definitions.
-/

set_option autoImplicit false

namespace v1beta1

/-! ## Go values -/

/-- A Go `error` value, observed through its message. -/
structure Error where
  msg : String
deriving DecidableEq

/-- The Go function `errors.New`. -/
def errors.New (text : String) : Error := ⟨text⟩

/-- A run-time panic of the Go program. -/
inductive Panic where
  | nilDereference
deriving DecidableEq

/-- A Go slice value: `nil` is the nil slice, `mk l` a non-nil slice holding `l`
(`mk []` is the empty, non-nil slice). -/
inductive Slice (α : Type) where
  | nil : Slice α
  | mk (elems : List α) : Slice α
deriving DecidableEq

namespace Slice

variable {α : Type}

/-- The elements a `range` loop or a `s...` spread sees. -/
def toList : Slice α → List α
  | nil => []
  | mk l => l

/-- The Go builtin `len`. -/
def len (s : Slice α) : Nat := s.toList.length

/-- The Go test `s == nil`. -/
def isNil : Slice α → Bool
  | nil => true
  | mk _ => false

/-- The Go call `append(s, x)`: the result always holds an element, so it is not nil. -/
def append1 (s : Slice α) (x : α) : Slice α := mk (s.toList ++ [x])

/-- The Go call `append(s, xs...)`: with nothing to add, `s` is returned as it is
(nil stays nil); otherwise the result is a non-nil slice. -/
def append (s xs : Slice α) : Slice α :=
  match xs.toList with
  | [] => s
  | x :: rest => mk (s.toList ++ x :: rest)

end Slice

/-! ## extensions.go -/

/-- The type `StorageExtension` (deprecated, a no-op); `Type_` is its field `Type`. -/
structure StorageExtension where
  Type_ : String
  CreateDefaultStorageClass : Bool
deriving DecidableEq

/-- The type `Chart`; `Timeout` is a `metav1.Duration`, a number of nanoseconds. -/
structure Chart where
  Name : String
  ChartName : String
  Version : String
  Values : String
  TargetNS : String
  Timeout : Int
  DisableForceUpgrade : Bool
  Order : Int
deriving DecidableEq

/-- The type `Repository`; `Insecure` is a `*bool`. -/
structure Repository where
  Name : String
  URL : String
  Insecure : Option Bool
  CAFile : String
  CertFile : String
  KeyFile : String
  Username : String
  Password : String
deriving DecidableEq

/-- The type `RepositoriesSettings`, a slice of repositories. -/
abbrev RepositoriesSettings := Slice Repository

/-- The type `ChartsSettings`, a slice of charts. -/
abbrev ChartsSettings := Slice Chart

/-- The type `HelmExtensions`. -/
structure HelmExtensions where
  ConcurrencyLevel : Int
  Repositories : RepositoriesSettings
  Charts : ChartsSettings
deriving DecidableEq

/-- The type `ClusterExtensions`; both fields are pointers. -/
structure ClusterExtensions where
  Storage : Option StorageExtension
  Helm : Option HelmExtensions
deriving DecidableEq

/-- The signature of `chartutil.ValidateReleaseName`, a function of the Helm library. -/
abbrev ReleaseNameValidator := String → Option Error

/-- The method `Chart.Validate`; `vrn` is `chartutil.ValidateReleaseName`. -/
def Chart.Validate (vrn : ReleaseNameValidator) (c : Chart) : Option Error :=
  if c.Name = "" then
    some (errors.New "chart must have Name field not empty")
  else
    match vrn c.Name with
    | some err => some err
    | none =>
      if c.ChartName = "" then
        some (errors.New "chart must have ChartName field not empty")
      else if c.TargetNS = "" then
        some (errors.New "chart must have TargetNS field not empty")
      else
        none

/-- The method `(*Repository).IsInsecure`; the receiver may be nil. -/
def Repository.IsInsecure (r : Option Repository) : Bool :=
  match r with
  | none => true
  | some r =>
    match r.Insecure with
    | none => true
    | some b => b

/-- The method `(*Repository).Validate` on a non-nil receiver. -/
def Repository.Validate (r : Repository) : Option Error :=
  if r.Name = "" then
    some (errors.New "repository must have Name field not empty")
  else if r.URL = "" then
    some (errors.New "repository must have URL field not empty")
  else
    none

/-- The method `RepositoriesSettings.Validate`: the loop appends the error of each
repository that has one; the loop variable is addressable, so the receiver of
`r.Validate()` is never nil. -/
def RepositoriesSettings.Validate (rs : RepositoriesSettings) : Slice Error :=
  let errs : Slice Error :=
    rs.toList.foldl
      (fun errs r =>
        match Repository.Validate r with
        | some err => errs.append1 err
        | none => errs)
      Slice.nil
  if errs.len > 0 then errs else Slice.nil

/-- The method `ChartsSettings.Validate`. -/
def ChartsSettings.Validate (vrn : ReleaseNameValidator) (cs : ChartsSettings) : Slice Error :=
  let errs : Slice Error :=
    cs.toList.foldl
      (fun errs c =>
        match Chart.Validate vrn c with
        | some err => errs.append1 err
        | none => errs)
      Slice.nil
  if errs.len > 0 then errs else Slice.nil

/-- The method `HelmExtensions.Validate`. -/
def HelmExtensions.Validate (vrn : ReleaseNameValidator) (he : HelmExtensions) : Slice Error :=
  let errs : Slice Error := Slice.nil
  let rErrs := RepositoriesSettings.Validate he.Repositories
  let errs := if rErrs.isNil then errs else errs.append rErrs
  let cErrs := ChartsSettings.Validate vrn he.Charts
  let errs := if cErrs.isNil then errs else errs.append cErrs
  if errs.len > 0 then errs else Slice.nil

/-- The method `(*ClusterExtensions).Validate`; the receiver may be nil. -/
def ClusterExtensions.Validate (vrn : ReleaseNameValidator) (e : Option ClusterExtensions) :
    Slice Error :=
  match e with
  | none => Slice.nil
  | some e =>
    let errs : Slice Error := Slice.nil
    let errs :=
      match e.Helm with
      | some helm => errs.append (HelmExtensions.Validate vrn helm)
      | none => errs
    errs

/-- The function `DefaultExtensions`: the fields the literal leaves out hold their
zero value, which for the two slices is nil. -/
def DefaultExtensions : Option ClusterExtensions :=
  some
    { Storage := none
      Helm := some { ConcurrencyLevel := 5, Repositories := Slice.nil, Charts := Slice.nil } }

/-! ## The release-name validator of the Helm library -/

namespace chartutil

/-- The characters `a`-`z` and `0`-`9`. -/
def isLowerAlnum (c : Char) : Bool :=
  (97 ≤ c.toNat && c.toNat ≤ 122) || (48 ≤ c.toNat && c.toNat ≤ 57)

/-- The characters a segment may hold: lowercase alphanumerics and the hyphen. -/
def isSegmentChar (c : Char) : Bool := isLowerAlnum c || c = '-'

/-- The dot-separated segments of a name (a name without a dot is one segment). -/
def segments : List Char → List (List Char)
  | [] => [[]]
  | c :: cs =>
    if c = '.' then [] :: segments cs
    else
      match segments cs with
      | [] => [[c]]
      | s :: ss => (c :: s) :: ss

/-- A segment: not empty, made of segment characters, with an alphanumeric at both ends. -/
def isSegment (s : List Char) : Bool :=
  s.all isSegmentChar && s.head?.any isLowerAlnum && s.getLast?.any isLowerAlnum

/-- The syntax of a release name, without the length bound. -/
def validName (name : String) : Bool := (segments name.data).all isSegment

/-- The longest release name accepted. -/
def maxReleaseNameLen : Nat := 53

/-- The error for a missing name. -/
def errMissingName : Error := errors.New "no name provided"

/-- The error for a name that is too long or not of the release-name syntax. -/
def errInvalidName : Error :=
  errors.New
    ("invalid release name, must match regex " ++
      "^[a-z0-9]([-a-z0-9]*[a-z0-9])?(\\.[a-z0-9]([-a-z0-9]*[a-z0-9])?)*$" ++
      " and the length must not be longer than 53")

/-- Modelled from the spec: `chartutil.ValidateReleaseName` belongs to the Helm library and
is not among the sources. A release name is accepted when it has 1 to 53 characters and
consists of dot-separated segments of lowercase alphanumerics and hyphens, each segment
starting and ending with an alphanumeric (the pattern the markers on `Chart.Name` repeat);
the two messages are those of the Helm library. -/
def ValidateReleaseName : ReleaseNameValidator := fun name =>
  if name = "" then
    some errMissingName
  else if name.length > maxReleaseNameLen || !validName name then
    some errInvalidName
  else
    none

end chartutil

/-! ## clusterconfig_types.go -/

/-- A Go `map[string]string`: `nil` is the nil map, `mk l` a non-nil map with the
entries `l`. -/
inductive StringMap where
  | nil : StringMap
  | mk (entries : List (String × String)) : StringMap
deriving DecidableEq

/-- The Go builtin `len` on a map. -/
def StringMap.len : StringMap → Nat
  | StringMap.nil => 0
  | StringMap.mk l => l.length

/-- The types of the other files of the package that `ClusterSpec` refers to, each with
its `Validate` method where `ClusterConfig.Validate` calls one. A method with a pointer
receiver takes an `Option`; a call may panic. -/
structure Collaborators where
  APISpec : Type
  StorageSpec : Type
  Network : Type
  PodSecurityPolicy : Type
  WorkerProfiles : Type
  ClusterTelemetry : Type
  SystemUser : Type
  ClusterImages : Type
  KonnectivitySpec : Type
  validateAPISpec : Option APISpec → Except Panic (Slice Error)
  validateStorageSpec : Option StorageSpec → Except Panic (Slice Error)
  validateNetwork : Option Network → Except Panic (Slice Error)
  validatePodSecurityPolicy : Option PodSecurityPolicy → Except Panic (Slice Error)
  validateWorkerProfiles : WorkerProfiles → Except Panic (Slice Error)
  validateClusterTelemetry : Option ClusterTelemetry → Except Panic (Slice Error)
  validateKonnectivitySpec : Option KonnectivitySpec → Except Panic (Slice Error)

/-- The type `InstallSpec`. -/
structure InstallSpec (K : Collaborators) where
  SystemUsers : Option K.SystemUser

/-- The type `ControllerManagerSpec`. -/
structure ControllerManagerSpec where
  ExtraArgs : StringMap
deriving DecidableEq

/-- The type `SchedulerSpec`. -/
structure SchedulerSpec where
  ExtraArgs : StringMap
deriving DecidableEq

/-- The type `ClusterSpec`. -/
structure ClusterSpec (K : Collaborators) where
  API : Option K.APISpec
  ControllerManager : Option ControllerManagerSpec
  Scheduler : Option SchedulerSpec
  Storage : Option K.StorageSpec
  Network : Option K.Network
  PodSecurityPolicy : Option K.PodSecurityPolicy
  WorkerProfiles : K.WorkerProfiles
  Telemetry : Option K.ClusterTelemetry
  Install : Option (InstallSpec K)
  Images : Option K.ClusterImages
  Extensions : Option ClusterExtensions
  Konnectivity : Option K.KonnectivitySpec

/-- The type `ClusterConfigStatus`, which has no field. -/
structure ClusterConfigStatus where
deriving DecidableEq

/-- The fields of `metav1.ObjectMeta` that this code reads or writes. -/
structure ObjectMeta where
  Name : String
  ClusterName : String
deriving DecidableEq

/-- The type `metav1.TypeMeta`. -/
structure TypeMeta where
  Kind : String
  APIVersion : String
deriving DecidableEq

/-- The type `ClusterConfig`; the two embedded structs are the first two fields. -/
structure ClusterConfig (K : Collaborators) where
  ObjectMeta : ObjectMeta
  TypeMeta : TypeMeta
  DataDir : String
  Spec : Option (ClusterSpec K)
  Status : ClusterConfigStatus

/-- The method `(*ControllerManagerSpec).Validate`, which reads nothing of its receiver. -/
def ControllerManagerSpec.Validate (_c : Option ControllerManagerSpec) : Slice Error :=
  Slice.nil

/-- The method `(*SchedulerSpec).Validate`. -/
def SchedulerSpec.Validate (_s : Option SchedulerSpec) : Slice Error :=
  Slice.nil

/-- The method `(*InstallSpec).Validate`. -/
def InstallSpec.Validate {K : Collaborators} (_i : Option (InstallSpec K)) : Slice Error :=
  Slice.nil

/-- The interface `Validateable`: a value together with its `Validate` method. -/
structure Validateable where
  Validate : Unit → Except Panic (Slice Error)

/-- The function `validateSpecs`. -/
def validateSpecs (v : Validateable) : Except Panic (Slice Error) :=
  v.Validate ()

/-- The method `(*ClusterConfig).Validate` on a non-nil receiver: every statement reads
`c.Spec.X`, which panics when `c.Spec` is nil. -/
def ClusterConfig.Validate (K : Collaborators) (vrn : ReleaseNameValidator)
    (c : ClusterConfig K) : Except Panic (Slice Error) :=
  match c.Spec with
  | none => Except.error Panic.nilDereference
  | some spec => do
    let errors : Slice Error := Slice.nil
    let errors := errors.append (← validateSpecs ⟨fun _ => K.validateAPISpec spec.API⟩)
    let errors := errors.append
      (← validateSpecs ⟨fun _ => pure (ControllerManagerSpec.Validate spec.ControllerManager)⟩)
    let errors := errors.append
      (← validateSpecs ⟨fun _ => pure (SchedulerSpec.Validate spec.Scheduler)⟩)
    let errors := errors.append (← validateSpecs ⟨fun _ => K.validateStorageSpec spec.Storage⟩)
    let errors := errors.append (← validateSpecs ⟨fun _ => K.validateNetwork spec.Network⟩)
    let errors := errors.append
      (← validateSpecs ⟨fun _ => K.validatePodSecurityPolicy spec.PodSecurityPolicy⟩)
    let errors := errors.append
      (← validateSpecs ⟨fun _ => K.validateWorkerProfiles spec.WorkerProfiles⟩)
    let errors := errors.append
      (← validateSpecs ⟨fun _ => K.validateClusterTelemetry spec.Telemetry⟩)
    let errors := errors.append
      (← validateSpecs ⟨fun _ => pure (InstallSpec.Validate spec.Install)⟩)
    let errors := errors.append
      (← validateSpecs ⟨fun _ => pure (ClusterExtensions.Validate vrn spec.Extensions)⟩)
    let errors := errors.append
      (← validateSpecs ⟨fun _ => K.validateKonnectivitySpec spec.Konnectivity⟩)
    return errors

/-- The method `(*ControllerManagerSpec).IsZero`, which reads `c.ExtraArgs`. -/
def ControllerManagerSpec.IsZero (c : Option ControllerManagerSpec) : Except Panic Bool :=
  match c with
  | none => Except.error Panic.nilDereference
  | some c => Except.ok (c.ExtraArgs.len == 0)

/-- The method `(*SchedulerSpec).IsZero`, which reads `s.ExtraArgs`. -/
def SchedulerSpec.IsZero (s : Option SchedulerSpec) : Except Panic Bool :=
  match s with
  | none => Except.error Panic.nilDereference
  | some s => Except.ok (s.ExtraArgs.len == 0)

/-- Modelled from the spec: the default constructors `DefaultStorageSpec`,
`DefaultNetwork`, `DefaultAPISpec`, `DefaultPodSecurityPolicy`, `DefaultInstallSpec`,
`DefaultClusterImages`, `DefaultClusterTelemetry` and `DefaultKonnectivitySpec` are in
other files of the package. Each takes the data directory or nothing and returns a
fully-populated value, so the pointer it returns is not nil. `nilWorkerProfiles` is the
zero value of the type `WorkerProfiles`, the value of a field that a struct literal
leaves out. -/
structure Defaults (K : Collaborators) where
  DefaultStorageSpec : String → K.StorageSpec
  DefaultNetwork : K.Network
  DefaultAPISpec : K.APISpec
  DefaultPodSecurityPolicy : K.PodSecurityPolicy
  DefaultInstallSpec : InstallSpec K
  DefaultClusterImages : K.ClusterImages
  DefaultClusterTelemetry : K.ClusterTelemetry
  DefaultKonnectivitySpec : K.KonnectivitySpec
  nilWorkerProfiles : K.WorkerProfiles

/-- The function `DefaultClusterSpec`; the literal leaves `WorkerProfiles` and
`Extensions` out, and `make(map[string]string)` is an empty map that is not nil. -/
def DefaultClusterSpec (K : Collaborators) (D : Defaults K) (dataDir : String) :
    Option (ClusterSpec K) :=
  some
    { Storage := some (D.DefaultStorageSpec dataDir)
      Network := some D.DefaultNetwork
      API := some D.DefaultAPISpec
      ControllerManager := some { ExtraArgs := StringMap.mk [] }
      Scheduler := some { ExtraArgs := StringMap.mk [] }
      PodSecurityPolicy := some D.DefaultPodSecurityPolicy
      Install := some D.DefaultInstallSpec
      Images := some D.DefaultClusterImages
      Telemetry := some D.DefaultClusterTelemetry
      Konnectivity := some D.DefaultKonnectivitySpec
      WorkerProfiles := D.nilWorkerProfiles
      Extensions := none }

/-- The function `DefaultClusterConfig`; the literal leaves `DataDir` and `Status` out. -/
def DefaultClusterConfig (K : Collaborators) (D : Defaults K) (dataDir : String) :
    Option (ClusterConfig K) :=
  some
    { ObjectMeta := { Name := "k0s", ClusterName := "" }
      TypeMeta := { APIVersion := "k0s.k0sproject.io/v1beta1", Kind := "ClusterConfig" }
      DataDir := ""
      Spec := DefaultClusterSpec K D dataDir
      Status := {} }

/-- The value of the literal `ClusterConfig{}`: every field holds its zero value. -/
def ClusterConfig.zero (K : Collaborators) : ClusterConfig K :=
  { ObjectMeta := { Name := "", ClusterName := "" }
    TypeMeta := { Kind := "", APIVersion := "" }
    DataDir := ""
    Spec := none
    Status := {} }

/-- The signature of `strictyaml.YamlUnmarshalStrictIgnoringFields`, a function of another
package: from the input, the value its target points to and the names of the ignorable
fields, it gives the value it leaves in the target and its error. -/
abbrev StrictDecoder (K : Collaborators) :=
  String → ClusterConfig K → List String → ClusterConfig K × Option Error

/-- The function `configFromString`; the results are the pointer and the error. -/
def configFromString (K : Collaborators) (D : Defaults K) (decode : StrictDecoder K)
    (yml dataDir : String) : Option (ClusterConfig K) × Option Error :=
  let config := ClusterConfig.zero K
  let (config, err) := decode yml config ["interval"]
  match err with
  | some err => (some config, some err)
  | none =>
    let config :=
      match config.Spec with
      | none => { config with Spec := DefaultClusterSpec K D dataDir }
      | some _ => config
    (some config, none)

/-- The signature of `json.Unmarshal` on a target of the type `config`, which has the
fields of `ClusterConfig` and none of its methods: from the input and the value its
target points to, it gives the value it leaves in the target and its error. -/
abbrev JSONDecoder (K : Collaborators) :=
  String → ClusterConfig K → ClusterConfig K × Option Error

/-- The method `(*ClusterConfig).UnmarshalJSON` on a non-nil receiver; the results are the
value the receiver points to afterwards and the error. `c.Kind` and `c.ClusterName` are
fields of the embedded `TypeMeta` and `ObjectMeta`. -/
def ClusterConfig.UnmarshalJSON (K : Collaborators) (D : Defaults K) (unmarshal : JSONDecoder K)
    (c : ClusterConfig K) (data : String) : ClusterConfig K × Option Error :=
  let c :=
    if c.TypeMeta.Kind = "" then
      { c with TypeMeta := { c.TypeMeta with Kind := "ClusterConfig" } }
    else c
  let c :=
    if c.ObjectMeta.ClusterName = "" then
      { c with ObjectMeta := { c.ObjectMeta with ClusterName := "k0s" } }
    else c
  let c := { c with Spec := DefaultClusterSpec K D c.DataDir }
  let (c, err) := unmarshal data c
  match err with
  | some err => (c, some err)
  | none => (c, none)

/-! ## Values used to instantiate the theorems -/

/-- A chart with the given name, chart reference and namespace, the rest zero. -/
def chartOf (name chartName targetNS : String) : Chart :=
  { Name := name, ChartName := chartName, Version := "", Values := "", TargetNS := targetNS,
    Timeout := 0, DisableForceUpgrade := false, Order := 0 }

/-- A repository with the given name, URL and insecure flag, the rest zero. -/
def repositoryOf (name url : String) (insecure : Option Bool) : Repository :=
  { Name := name, URL := url, Insecure := insecure, CAFile := "", CertFile := "",
    KeyFile := "", Username := "", Password := "" }

/-- The number of rules of the spec a chart violates, among name-empty, name-syntax,
chartname-empty and namespace-empty. -/
def Chart.violatedRules (vrn : ReleaseNameValidator) (c : Chart) : Nat :=
  (if c.Name = "" then 1 else 0) + (if (vrn c.Name).isSome then 1 else 0) +
    (if c.ChartName = "" then 1 else 0) + (if c.TargetNS = "" then 1 else 0)

/-- The number of rules of the spec a repository violates, among name-empty and
URL-empty. -/
def Repository.violatedRules (r : Repository) : Nat :=
  (if r.Name = "" then 1 else 0) + (if r.URL = "" then 1 else 0)

/-- The total number of violated rules over the repositories and the charts of a
`HelmExtensions` value. -/
def HelmExtensions.violatedRules (vrn : ReleaseNameValidator) (he : HelmExtensions) : Nat :=
  (he.Repositories.toList.map Repository.violatedRules).sum +
    (he.Charts.toList.map (Chart.violatedRules vrn)).sum

/-- A `HelmExtensions` value with no repository and the one chart
`Chart{Name: "a", ChartName: "", TargetNS: ""}`. -/
def helmOneChartTwoViolations : HelmExtensions :=
  { ConcurrencyLevel := 5, Repositories := Slice.nil, Charts := Slice.mk [chartOf "a" "" ""] }

/-- A validator for the examples: a sub-spec is a boolean that tells whether it is valid;
an invalid one gets one error, with the given message, and a nil one gets none. -/
def flagValidate (message : String) : Option Bool → Except Panic (Slice Error)
  | some false => Except.ok (Slice.mk [errors.New message])
  | _ => Except.ok Slice.nil

/-- Collaborators for the examples: every type of another file is `Bool`. -/
def flagCollaborators : Collaborators :=
  { APISpec := Bool
    StorageSpec := Bool
    Network := Bool
    PodSecurityPolicy := Bool
    WorkerProfiles := Bool
    ClusterTelemetry := Bool
    SystemUser := Bool
    ClusterImages := Bool
    KonnectivitySpec := Bool
    validateAPISpec := flagValidate "api"
    validateStorageSpec := flagValidate "storage"
    validateNetwork := flagValidate "network"
    validatePodSecurityPolicy := flagValidate "podSecurityPolicy"
    validateWorkerProfiles := fun wp => flagValidate "workerProfiles" (some wp)
    validateClusterTelemetry := flagValidate "telemetry"
    validateKonnectivitySpec := flagValidate "konnectivity" }

/-- A spec for the examples: the API, the storage and the connectivity tunnel are invalid,
and the extensions hold one chart with an empty name. -/
def flagSpec : ClusterSpec flagCollaborators :=
  { API := some false
    ControllerManager := some { ExtraArgs := StringMap.mk [] }
    Scheduler := none
    Storage := some false
    Network := some true
    PodSecurityPolicy := none
    WorkerProfiles := true
    Telemetry := some true
    Install := none
    Images := none
    Extensions := some
      { Storage := none
        Helm := some
          { ConcurrencyLevel := 5, Repositories := Slice.mk [],
            Charts := Slice.mk [chartOf "" "x" "y"] } }
    Konnectivity := some false }

/-- A config for the examples, with or without a spec. -/
def flagConfig (spec : Option (ClusterSpec flagCollaborators)) : ClusterConfig flagCollaborators :=
  { ObjectMeta := { Name := "k0s", ClusterName := "" }
    TypeMeta := { Kind := "ClusterConfig", APIVersion := "k0s.k0sproject.io/v1beta1" }
    DataDir := ""
    Spec := spec
    Status := {} }

/-- Default constructors for the examples: every default is valid. -/
def flagDefaults : Defaults flagCollaborators :=
  { DefaultStorageSpec := fun _ => true
    DefaultNetwork := true
    DefaultAPISpec := true
    DefaultPodSecurityPolicy := true
    DefaultInstallSpec := { SystemUsers := some true }
    DefaultClusterImages := true
    DefaultClusterTelemetry := true
    DefaultKonnectivitySpec := true
    nilWorkerProfiles := true }

/-- A strict decoder for the examples: the input `"bad"` is an error that leaves the
target as it is, the input `"spec"` sets the spec of the target to `flagSpec`, and any
other input sets only the name. -/
def flagDecode : StrictDecoder flagCollaborators := fun yml target _ =>
  if yml = "bad" then (target, some (errors.New "decode error"))
  else if yml = "spec" then ({ target with Spec := some flagSpec }, none)
  else ({ target with ObjectMeta := { target.ObjectMeta with Name := yml } }, none)

/-! ## Chart.Validate -/

/-- C1: `Chart.Validate` returns no error exactly when `Name` is non-empty, `Name` passes
the release-name validator, `ChartName` is non-empty and `TargetNS` is non-empty; the
fields `Version`, `Values`, `Timeout`, `DisableForceUpgrade` and `Order` do not influence
the result. -/
theorem chart_validate_eq_none_iff (vrn : ReleaseNameValidator) (c : Chart) :
    (Chart.Validate vrn c = none ↔
      c.Name ≠ "" ∧ vrn c.Name = none ∧ c.ChartName ≠ "" ∧ c.TargetNS ≠ "") ∧
    (∀ (version values : String) (timeout : Int) (noForce : Bool) (order : Int),
      Chart.Validate vrn
        { c with Version := version, Values := values, Timeout := timeout,
                 DisableForceUpgrade := noForce, Order := order } = Chart.Validate vrn c) := by
  refine ⟨?_, fun _ _ _ _ _ => rfl⟩
  unfold Chart.Validate
  by_cases hn : c.Name = ""
  · simp [hn]
  · cases hv : vrn c.Name with
    | some err => simp [hn]
    | none =>
      by_cases hc : c.ChartName = ""
      · simp [hn, hc]
      · by_cases ht : c.TargetNS = "" <;> simp [hn, hc, ht]

/-- C2: the error of `Chart.Validate` is that of the first violated rule, in the order
name-empty, name-syntax, chartname-empty, namespace-empty: an empty `Name` gives the
empty-name error whatever the other fields are; a non-empty `Name` the validator rejects
gives the error of the validator, and that error, for the release-name validator of the
Helm library, differs from the empty-name error; a valid `Name` with an empty `ChartName`
gives the ChartName error, also when `TargetNS` is empty too, and the TargetNS error comes
only after that. -/
theorem chart_validate_first_violated_rule (vrn : ReleaseNameValidator) (c : Chart) :
    (c.Name = "" →
      Chart.Validate vrn c = some (errors.New "chart must have Name field not empty")) ∧
    (∀ err, c.Name ≠ "" → vrn c.Name = some err → Chart.Validate vrn c = some err) ∧
    (∀ err, chartutil.ValidateReleaseName c.Name = some err →
      err ≠ errors.New "chart must have Name field not empty") ∧
    (c.Name ≠ "" → vrn c.Name = none → c.ChartName = "" →
      Chart.Validate vrn c = some (errors.New "chart must have ChartName field not empty")) ∧
    (c.Name ≠ "" → vrn c.Name = none → c.ChartName ≠ "" → c.TargetNS = "" →
      Chart.Validate vrn c = some (errors.New "chart must have TargetNS field not empty")) ∧
    errors.New "chart must have ChartName field not empty" ≠
      errors.New "chart must have TargetNS field not empty" := by
  refine ⟨?_, ?_, ?_, ?_, ?_, by decide⟩
  · intro hn
    simp [Chart.Validate, hn]
  · intro err hn hv
    simp [Chart.Validate, hn, hv]
  · intro err hv
    unfold chartutil.ValidateReleaseName at hv
    split at hv
    · cases hv
      decide
    · split at hv
      · cases hv
        decide
      · cases hv
  · intro hn hv hc
    simp [Chart.Validate, hn, hv, hc]
  · intro hn hv hc ht
    simp [Chart.Validate, hn, hv, hc, ht]

/-- Witness of C2 at the charts of the spec: `Name: ""` with `ChartName: "x"` and
`TargetNS: "y"`, and `Name: "BAD_NAME!"`. -/
theorem chart_validate_first_violated_rule_witness :
    Chart.Validate chartutil.ValidateReleaseName (chartOf "" "x" "y") =
        some (errors.New "chart must have Name field not empty") ∧
      Chart.Validate chartutil.ValidateReleaseName (chartOf "BAD_NAME!" "x" "y") =
        some chartutil.errInvalidName ∧
      chartutil.errInvalidName ≠ errors.New "chart must have Name field not empty" ∧
      Chart.Validate chartutil.ValidateReleaseName (chartOf "a" "" "") =
        some (errors.New "chart must have ChartName field not empty") :=
  ⟨(chart_validate_first_violated_rule chartutil.ValidateReleaseName (chartOf "" "x" "y")).1
      rfl,
    (chart_validate_first_violated_rule chartutil.ValidateReleaseName
      (chartOf "BAD_NAME!" "x" "y")).2.1 chartutil.errInvalidName (by decide) (by decide),
    (chart_validate_first_violated_rule chartutil.ValidateReleaseName
      (chartOf "BAD_NAME!" "x" "y")).2.2.1 chartutil.errInvalidName (by decide),
    (chart_validate_first_violated_rule chartutil.ValidateReleaseName
      (chartOf "a" "" "")).2.2.2.1 (by decide) (by decide) rfl⟩

/-! ## Repository -/

/-- C3: `IsInsecure` returns false exactly when the receiver is non-nil and its `Insecure`
is set and points to false; it returns true for a nil receiver, when `Insecure` is unset,
and when `Insecure` points to true. -/
theorem repository_isInsecure_eq_false_iff (r : Option Repository) :
    (Repository.IsInsecure r = false ↔ ∃ r0, r = some r0 ∧ r0.Insecure = some false) ∧
    Repository.IsInsecure none = true ∧
    (∀ r0 : Repository, r0.Insecure = none → Repository.IsInsecure (some r0) = true) ∧
    (∀ r0 : Repository, r0.Insecure = some true → Repository.IsInsecure (some r0) = true) := by
  refine ⟨?_, rfl, ?_, ?_⟩
  · cases r with
    | none => simp [Repository.IsInsecure]
    | some r0 =>
      cases hi : r0.Insecure with
      | none => simp [Repository.IsInsecure, hi]
      | some b => cases b <;> simp [Repository.IsInsecure, hi]
  · intro r0 hi
    simp [Repository.IsInsecure, hi]
  · intro r0 hi
    simp [Repository.IsInsecure, hi]

/-- C4: `Repository.Validate` on a non-nil repository returns no error exactly when `Name`
and `URL` are non-empty; an empty `Name` gives the Name error, also when `URL` is empty
too; an empty `URL` next to a non-empty `Name` gives the URL error; the insecure flag, the
TLS files and the credentials do not influence the result. -/
theorem repository_validate_eq_none_iff (r : Repository) :
    (Repository.Validate r = none ↔ r.Name ≠ "" ∧ r.URL ≠ "") ∧
    (r.Name = "" →
      Repository.Validate r = some (errors.New "repository must have Name field not empty")) ∧
    (r.Name ≠ "" → r.URL = "" →
      Repository.Validate r = some (errors.New "repository must have URL field not empty")) ∧
    (∀ (insecure : Option Bool) (ca cert key user password : String),
      Repository.Validate
        { r with Insecure := insecure, CAFile := ca, CertFile := cert, KeyFile := key,
                 Username := user, Password := password } = Repository.Validate r) := by
  refine ⟨?_, ?_, ?_, fun _ _ _ _ _ _ => rfl⟩
  · unfold Repository.Validate
    by_cases hn : r.Name = ""
    · simp [hn]
    · by_cases hu : r.URL = "" <;> simp [hn, hu]
  · intro hn
    simp [Repository.Validate, hn]
  · intro hn hu
    simp [Repository.Validate, hn, hu]

/-! ## Slices of errors -/

theorem slice_toList_append {α : Type} (s xs : Slice α) :
    (s.append xs).toList = s.toList ++ xs.toList := by
  unfold Slice.append
  cases h : xs.toList with
  | nil => simp
  | cons x rest => simp [Slice.toList]

/-- The loop of the two list validators: starting from `s`, it leaves `s` as it is when
no element has an error, and otherwise yields a non-nil slice holding the elements of
`s` followed by the errors in the order of the list. -/
theorem foldl_collect {α : Type} (f : α → Option Error) (l : List α) (s : Slice Error) :
    l.foldl
        (fun errs x =>
          match f x with
          | some err => errs.append1 err
          | none => errs) s =
      if l.filterMap f = [] then s else Slice.mk (s.toList ++ l.filterMap f) := by
  induction l generalizing s with
  | nil => simp
  | cons a l ih =>
    rw [List.foldl_cons, ih]
    cases hf : f a with
    | none => simp [List.filterMap_cons, hf]
    | some err =>
      by_cases hl : l.filterMap f = [] <;>
        simp [List.filterMap_cons, hf, hl, Slice.append1, Slice.toList]

/-- The result of a list validator, from the errors of the elements: nil when there is
none, and the non-nil slice of the errors otherwise. -/
theorem collect_result {α : Type} (f : α → Option Error) (l : List α) :
    (let errs : Slice Error :=
        l.foldl
          (fun errs x =>
            match f x with
            | some err => errs.append1 err
            | none => errs) Slice.nil
      if errs.len > 0 then errs else Slice.nil) =
      if l.filterMap f = [] then Slice.nil else Slice.mk (l.filterMap f) := by
  simp only [foldl_collect]
  by_cases hl : l.filterMap f = []
  · simp [hl]
  · have hpos : 0 < (l.filterMap f).length := List.length_pos.mpr hl
    simp [hl, Slice.len, Slice.toList, hpos]

theorem repositoriesSettings_validate_eq (rs : RepositoriesSettings) :
    RepositoriesSettings.Validate rs =
      if rs.toList.filterMap Repository.Validate = [] then Slice.nil
      else Slice.mk (rs.toList.filterMap Repository.Validate) :=
  collect_result Repository.Validate rs.toList

theorem chartsSettings_validate_eq (vrn : ReleaseNameValidator) (cs : ChartsSettings) :
    ChartsSettings.Validate vrn cs =
      if cs.toList.filterMap (Chart.Validate vrn) = [] then Slice.nil
      else Slice.mk (cs.toList.filterMap (Chart.Validate vrn)) :=
  collect_result (Chart.Validate vrn) cs.toList

theorem helmExtensions_validate_eq (vrn : ReleaseNameValidator) (he : HelmExtensions) :
    HelmExtensions.Validate vrn he =
      if he.Repositories.toList.filterMap Repository.Validate ++
          he.Charts.toList.filterMap (Chart.Validate vrn) = [] then Slice.nil
      else Slice.mk (he.Repositories.toList.filterMap Repository.Validate ++
          he.Charts.toList.filterMap (Chart.Validate vrn)) := by
  unfold HelmExtensions.Validate
  rw [repositoriesSettings_validate_eq, chartsSettings_validate_eq]
  generalize he.Repositories.toList.filterMap Repository.Validate = rErrs
  generalize he.Charts.toList.filterMap (Chart.Validate vrn) = cErrs
  cases rErrs <;> cases cErrs <;>
    simp [Slice.isNil, Slice.append, Slice.toList, Slice.len]

theorem filterMap_eq_nil_iff_forall {α : Type} (f : α → Option Error) (l : List α) :
    l.filterMap f = [] ↔ ∀ x ∈ l, f x = none := by
  induction l with
  | nil => simp
  | cons a l ih =>
    cases hf : f a with
    | none => simp [List.filterMap_cons, hf, ih]
    | some err => simp [List.filterMap_cons, hf]

theorem length_filterMap_eq_countP {α : Type} (f : α → Option Error) (l : List α) :
    (l.filterMap f).length = l.countP (fun x => (f x).isSome) := by
  induction l with
  | nil => simp
  | cons a l ih =>
    cases hf : f a with
    | none => simp [List.filterMap_cons, hf, ih]
    | some err => simp [List.filterMap_cons, hf, ih]

/-! ## The list validators and HelmExtensions.Validate -/

/-- C5: `ChartsSettings.Validate` returns exactly the errors `Chart.Validate` gives for the
invalid charts, in the order of the charts, one per invalid chart and none for a valid one,
so their number is the number of invalid charts; the same holds for
`RepositoriesSettings.Validate` with `Repository.Validate`; a list of two invalid charts
gives the two errors, that of the first chart first. -/
theorem chartsSettings_validate_errors_in_order (vrn : ReleaseNameValidator)
    (cs : ChartsSettings) (rs : RepositoriesSettings) :
    (ChartsSettings.Validate vrn cs).toList = cs.toList.filterMap (Chart.Validate vrn) ∧
    (ChartsSettings.Validate vrn cs).len =
      cs.toList.countP (fun c => (Chart.Validate vrn c).isSome) ∧
    (RepositoriesSettings.Validate rs).toList = rs.toList.filterMap Repository.Validate ∧
    (RepositoriesSettings.Validate rs).len =
      rs.toList.countP (fun r => (Repository.Validate r).isSome) ∧
    (∀ (a b : Chart) (ea eb : Error),
      Chart.Validate vrn a = some ea → Chart.Validate vrn b = some eb →
        ChartsSettings.Validate vrn (Slice.mk [a, b]) = Slice.mk [ea, eb]) := by
  have hcs : (ChartsSettings.Validate vrn cs).toList =
      cs.toList.filterMap (Chart.Validate vrn) := by
    rw [chartsSettings_validate_eq]
    split
    · next h => rw [h]; rfl
    · rfl
  have hrs : (RepositoriesSettings.Validate rs).toList =
      rs.toList.filterMap Repository.Validate := by
    rw [repositoriesSettings_validate_eq]
    split
    · next h => rw [h]; rfl
    · rfl
  refine ⟨hcs, ?_, hrs, ?_, ?_⟩
  · rw [Slice.len, hcs, length_filterMap_eq_countP]
  · rw [Slice.len, hrs, length_filterMap_eq_countP]
  · intro a b ea eb ha hb
    rw [chartsSettings_validate_eq]
    simp [Slice.toList, List.filterMap_cons, ha, hb]

/-- C6: each of `RepositoriesSettings.Validate`, `ChartsSettings.Validate` and
`HelmExtensions.Validate` returns nil exactly when every repository and every chart it
covers validates without error, and none of them ever returns an empty non-nil slice; a
nil list and an empty list give nil. -/
theorem validate_eq_nil_iff_all_valid (vrn : ReleaseNameValidator) (rs : RepositoriesSettings)
    (cs : ChartsSettings) (he : HelmExtensions) :
    (RepositoriesSettings.Validate rs = Slice.nil ↔
      ∀ r ∈ rs.toList, Repository.Validate r = none) ∧
    RepositoriesSettings.Validate rs ≠ Slice.mk [] ∧
    (ChartsSettings.Validate vrn cs = Slice.nil ↔
      ∀ c ∈ cs.toList, Chart.Validate vrn c = none) ∧
    ChartsSettings.Validate vrn cs ≠ Slice.mk [] ∧
    (HelmExtensions.Validate vrn he = Slice.nil ↔
      (∀ r ∈ he.Repositories.toList, Repository.Validate r = none) ∧
      (∀ c ∈ he.Charts.toList, Chart.Validate vrn c = none)) ∧
    HelmExtensions.Validate vrn he ≠ Slice.mk [] ∧
    RepositoriesSettings.Validate Slice.nil = Slice.nil ∧
    RepositoriesSettings.Validate (Slice.mk []) = Slice.nil ∧
    ChartsSettings.Validate vrn Slice.nil = Slice.nil ∧
    ChartsSettings.Validate vrn (Slice.mk []) = Slice.nil ∧
    (∀ (n : Int) (rs0 : RepositoriesSettings) (cs0 : ChartsSettings),
      rs0.toList = [] → cs0.toList = [] →
        HelmExtensions.Validate vrn
          { ConcurrencyLevel := n, Repositories := rs0, Charts := cs0 } = Slice.nil) := by
  refine ⟨?_, ?_, ?_, ?_, ?_, ?_, rfl, rfl, rfl, rfl, ?_⟩
  · rw [repositoriesSettings_validate_eq, ← filterMap_eq_nil_iff_forall]
    by_cases h : rs.toList.filterMap Repository.Validate = [] <;> simp [h]
  · rw [repositoriesSettings_validate_eq]
    by_cases h : rs.toList.filterMap Repository.Validate = [] <;> simp [h]
  · rw [chartsSettings_validate_eq, ← filterMap_eq_nil_iff_forall]
    by_cases h : cs.toList.filterMap (Chart.Validate vrn) = [] <;> simp [h]
  · rw [chartsSettings_validate_eq]
    by_cases h : cs.toList.filterMap (Chart.Validate vrn) = [] <;> simp [h]
  · rw [helmExtensions_validate_eq, ← filterMap_eq_nil_iff_forall,
      ← filterMap_eq_nil_iff_forall, ← List.append_eq_nil]
    by_cases h : he.Repositories.toList.filterMap Repository.Validate ++
        he.Charts.toList.filterMap (Chart.Validate vrn) = []
    · rw [if_pos h]
      exact ⟨fun _ => h, fun _ => rfl⟩
    · rw [if_neg h]
      exact ⟨fun hm => Slice.noConfusion hm, fun hn => absurd hn h⟩
  · rw [helmExtensions_validate_eq]
    by_cases h : he.Repositories.toList.filterMap Repository.Validate ++
        he.Charts.toList.filterMap (Chart.Validate vrn) = []
    · rw [if_pos h]
      intro hm
      cases hm
    · rw [if_neg h]
      intro hm
      injection hm with hm
      exact h hm
  · intro n rs0 cs0 hr hc
    rw [helmExtensions_validate_eq]
    simp [hr, hc]

/-- C7: `ClusterExtensions.Validate` returns nil, so zero errors, for a nil extensions block
and for every block whose `Helm` is nil, whatever its `Storage` holds; for a block with a
non-nil `Helm` it returns exactly `HelmExtensions.Validate` of that value. -/
theorem clusterExtensions_validate_cases (vrn : ReleaseNameValidator) :
    ClusterExtensions.Validate vrn none = Slice.nil ∧
    (ClusterExtensions.Validate vrn none).len = 0 ∧
    (∀ storage : Option StorageExtension,
      ClusterExtensions.Validate vrn (some { Storage := storage, Helm := none }) = Slice.nil ∧
      (ClusterExtensions.Validate vrn (some { Storage := storage, Helm := none })).len = 0) ∧
    (∀ (storage : Option StorageExtension) (helm : HelmExtensions),
      ClusterExtensions.Validate vrn (some { Storage := storage, Helm := some helm }) =
        HelmExtensions.Validate vrn helm) := by
  refine ⟨rfl, rfl, fun _ => ⟨rfl, rfl⟩, ?_⟩
  intro storage helm
  simp only [ClusterExtensions.Validate]
  rw [helmExtensions_validate_eq]
  generalize helm.Repositories.toList.filterMap Repository.Validate ++
    helm.Charts.toList.filterMap (Chart.Validate vrn) = l
  cases l <;> simp [Slice.append, Slice.toList]

/-! ## ClusterConfig.Validate -/

/-- With a spec present and every validator of another file returning, the result of
`ClusterConfig.Validate` is the chain of the eleven `append` calls. -/
theorem clusterConfig_validate_of_ok (K : Collaborators) (vrn : ReleaseNameValidator)
    (c : ClusterConfig K) (spec : ClusterSpec K)
    (eAPI eStorage eNetwork ePSP eWorker eTelemetry eKonnectivity : Slice Error)
    (hSpec : c.Spec = some spec)
    (hAPI : K.validateAPISpec spec.API = Except.ok eAPI)
    (hStorage : K.validateStorageSpec spec.Storage = Except.ok eStorage)
    (hNetwork : K.validateNetwork spec.Network = Except.ok eNetwork)
    (hPSP : K.validatePodSecurityPolicy spec.PodSecurityPolicy = Except.ok ePSP)
    (hWorker : K.validateWorkerProfiles spec.WorkerProfiles = Except.ok eWorker)
    (hTelemetry : K.validateClusterTelemetry spec.Telemetry = Except.ok eTelemetry)
    (hKonnectivity : K.validateKonnectivitySpec spec.Konnectivity = Except.ok eKonnectivity) :
    ClusterConfig.Validate K vrn c =
      Except.ok
        (((((((((((Slice.nil.append eAPI).append
          (ControllerManagerSpec.Validate spec.ControllerManager)).append
          (SchedulerSpec.Validate spec.Scheduler)).append eStorage).append eNetwork).append
          ePSP).append eWorker).append eTelemetry).append
          (InstallSpec.Validate spec.Install)).append
          (ClusterExtensions.Validate vrn spec.Extensions)).append eKonnectivity) := by
  unfold ClusterConfig.Validate
  rw [hSpec]
  simp only [validateSpecs, hAPI, hStorage, hNetwork, hPSP, hWorker, hTelemetry,
    hKonnectivity]
  rfl

/-- C8: for a config whose `Spec` is present, `ClusterConfig.Validate` returns exactly the
concatenation of the error lists of the eleven validators in the order API,
controller-manager, scheduler, storage, network, pod-security-policy, worker-profiles,
telemetry, install, extensions, connectivity-tunnel; each list is kept whole and in its
own order, whatever the lists before it hold. -/
theorem clusterConfig_validate_eq_concat (K : Collaborators) (vrn : ReleaseNameValidator)
    (c : ClusterConfig K) (spec : ClusterSpec K)
    (eAPI eStorage eNetwork ePSP eWorker eTelemetry eKonnectivity : Slice Error)
    (hSpec : c.Spec = some spec)
    (hAPI : K.validateAPISpec spec.API = Except.ok eAPI)
    (hStorage : K.validateStorageSpec spec.Storage = Except.ok eStorage)
    (hNetwork : K.validateNetwork spec.Network = Except.ok eNetwork)
    (hPSP : K.validatePodSecurityPolicy spec.PodSecurityPolicy = Except.ok ePSP)
    (hWorker : K.validateWorkerProfiles spec.WorkerProfiles = Except.ok eWorker)
    (hTelemetry : K.validateClusterTelemetry spec.Telemetry = Except.ok eTelemetry)
    (hKonnectivity : K.validateKonnectivitySpec spec.Konnectivity = Except.ok eKonnectivity) :
    ∃ errs : Slice Error,
      ClusterConfig.Validate K vrn c = Except.ok errs ∧
      errs.toList =
        eAPI.toList ++ (ControllerManagerSpec.Validate spec.ControllerManager).toList ++
          (SchedulerSpec.Validate spec.Scheduler).toList ++ eStorage.toList ++
          eNetwork.toList ++ ePSP.toList ++ eWorker.toList ++ eTelemetry.toList ++
          (InstallSpec.Validate spec.Install).toList ++
          (ClusterExtensions.Validate vrn spec.Extensions).toList ++ eKonnectivity.toList := by
  refine ⟨_, clusterConfig_validate_of_ok K vrn c spec eAPI eStorage eNetwork ePSP eWorker
    eTelemetry eKonnectivity hSpec hAPI hStorage hNetwork hPSP hWorker hTelemetry
    hKonnectivity, ?_⟩
  simp only [slice_toList_append]
  simp [Slice.toList]

/-- Witness of C8: with the API, the storage, one chart of the extensions and the
connectivity tunnel invalid, the four errors come out in that order. -/
theorem clusterConfig_validate_eq_concat_witness :
    ∃ errs : Slice Error,
      ClusterConfig.Validate flagCollaborators chartutil.ValidateReleaseName
          (flagConfig (some flagSpec)) = Except.ok errs ∧
      errs.toList =
        [errors.New "api"] ++ [] ++ [] ++ [errors.New "storage"] ++ [] ++ [] ++ [] ++ [] ++
          [] ++ [errors.New "chart must have Name field not empty"] ++
          [errors.New "konnectivity"] :=
  clusterConfig_validate_eq_concat flagCollaborators chartutil.ValidateReleaseName
    (flagConfig (some flagSpec)) flagSpec
    (Slice.mk [errors.New "api"]) (Slice.mk [errors.New "storage"]) Slice.nil Slice.nil
    Slice.nil Slice.nil (Slice.mk [errors.New "konnectivity"])
    rfl rfl rfl rfl rfl rfl rfl rfl

/-- C9, as stated, fails: on a config whose `Spec` is nil the call panics with a nil
dereference and returns no list. -/
theorem clusterConfig_validate_nil_spec_panics :
    ClusterConfig.Validate flagCollaborators chartutil.ValidateReleaseName (flagConfig none) =
        Except.error Panic.nilDereference ∧
      ¬ ∃ errs : Slice Error,
        ClusterConfig.Validate flagCollaborators chartutil.ValidateReleaseName
          (flagConfig none) = Except.ok errs := by
  refine ⟨rfl, ?_⟩
  rintro ⟨errs, h⟩
  cases h

/-- C9, amended: for every config whose `Spec` is present, `ClusterConfig.Validate` returns
a list of errors, possibly empty, rather than failing, provided each validator of another
file that it calls returns. -/
theorem clusterConfig_validate_returns_of_spec (K : Collaborators) (vrn : ReleaseNameValidator)
    (c : ClusterConfig K) (spec : ClusterSpec K)
    (hSpec : c.Spec = some spec)
    (hAPI : ∃ e, K.validateAPISpec spec.API = Except.ok e)
    (hStorage : ∃ e, K.validateStorageSpec spec.Storage = Except.ok e)
    (hNetwork : ∃ e, K.validateNetwork spec.Network = Except.ok e)
    (hPSP : ∃ e, K.validatePodSecurityPolicy spec.PodSecurityPolicy = Except.ok e)
    (hWorker : ∃ e, K.validateWorkerProfiles spec.WorkerProfiles = Except.ok e)
    (hTelemetry : ∃ e, K.validateClusterTelemetry spec.Telemetry = Except.ok e)
    (hKonnectivity : ∃ e, K.validateKonnectivitySpec spec.Konnectivity = Except.ok e) :
    ∃ errs : Slice Error, ClusterConfig.Validate K vrn c = Except.ok errs := by
  obtain ⟨eAPI, hAPI⟩ := hAPI
  obtain ⟨eStorage, hStorage⟩ := hStorage
  obtain ⟨eNetwork, hNetwork⟩ := hNetwork
  obtain ⟨ePSP, hPSP⟩ := hPSP
  obtain ⟨eWorker, hWorker⟩ := hWorker
  obtain ⟨eTelemetry, hTelemetry⟩ := hTelemetry
  obtain ⟨eKonnectivity, hKonnectivity⟩ := hKonnectivity
  exact ⟨_, clusterConfig_validate_of_ok K vrn c spec eAPI eStorage eNetwork ePSP eWorker
    eTelemetry eKonnectivity hSpec hAPI hStorage hNetwork hPSP hWorker hTelemetry
    hKonnectivity⟩

/-- Witness of the amended C9 at the example config with its spec present. -/
theorem clusterConfig_validate_returns_of_spec_witness :
    ∃ errs : Slice Error,
      ClusterConfig.Validate flagCollaborators chartutil.ValidateReleaseName
        (flagConfig (some flagSpec)) = Except.ok errs :=
  clusterConfig_validate_returns_of_spec flagCollaborators chartutil.ValidateReleaseName
    (flagConfig (some flagSpec)) flagSpec rfl ⟨_, rfl⟩ ⟨_, rfl⟩ ⟨_, rfl⟩ ⟨_, rfl⟩ ⟨_, rfl⟩
    ⟨_, rfl⟩ ⟨_, rfl⟩

/-! ## Errors and rule violations -/

theorem chart_validate_isSome_eq (vrn : ReleaseNameValidator) (c : Chart) :
    (Chart.Validate vrn c).isSome = decide (0 < Chart.violatedRules vrn c) := by
  unfold Chart.Validate Chart.violatedRules
  by_cases hn : c.Name = ""
  · simp [hn]
  · cases hv : vrn c.Name with
    | some err => simp [hn]
    | none =>
      by_cases hc : c.ChartName = ""
      · simp [hn, hc]
      · by_cases ht : c.TargetNS = "" <;> simp [hn, hc, ht]

theorem repository_validate_isSome_eq (r : Repository) :
    (Repository.Validate r).isSome = decide (0 < Repository.violatedRules r) := by
  unfold Repository.Validate Repository.violatedRules
  by_cases hn : r.Name = ""
  · simp [hn]
  · by_cases hu : r.URL = "" <;> simp [hn, hu]

theorem helmExtensions_validate_toList (vrn : ReleaseNameValidator) (he : HelmExtensions) :
    (HelmExtensions.Validate vrn he).toList =
      he.Repositories.toList.filterMap Repository.Validate ++
        he.Charts.toList.filterMap (Chart.Validate vrn) := by
  rw [helmExtensions_validate_eq]
  split
  · next h => rw [h]; rfl
  · rfl

/-- C10, as stated, fails: the one chart `Chart{Name: "a", ChartName: "", TargetNS: ""}`
violates two rules and `HelmExtensions.Validate` returns one error. -/
theorem helmExtensions_validate_len_ne_violatedRules :
    (HelmExtensions.Validate chartutil.ValidateReleaseName helmOneChartTwoViolations).len = 1 ∧
      HelmExtensions.violatedRules chartutil.ValidateReleaseName helmOneChartTwoViolations = 2 ∧
      (HelmExtensions.Validate chartutil.ValidateReleaseName helmOneChartTwoViolations).len ≠
        HelmExtensions.violatedRules chartutil.ValidateReleaseName
          helmOneChartTwoViolations := by
  decide

/-- C10, amended: `HelmExtensions.Validate` returns one error per invalid element: the
number of errors is the number of repositories and charts that violate at least one rule,
it never exceeds the total number of violated rules, and a single chart that has both an
empty `ChartName` and an empty `TargetNS` contributes one error. -/
theorem helmExtensions_validate_len_eq_invalid_count (vrn : ReleaseNameValidator)
    (he : HelmExtensions) :
    (HelmExtensions.Validate vrn he).len =
      he.Repositories.toList.countP (fun r => decide (0 < Repository.violatedRules r)) +
        he.Charts.toList.countP (fun c => decide (0 < Chart.violatedRules vrn c)) ∧
    (HelmExtensions.Validate vrn he).len ≤ HelmExtensions.violatedRules vrn he ∧
    (∀ (n : Int) (c : Chart), c.ChartName = "" → c.TargetNS = "" →
      (HelmExtensions.Validate vrn
        { ConcurrencyLevel := n, Repositories := Slice.nil, Charts := Slice.mk [c] }).len = 1) := by
  have hlen : ∀ h : HelmExtensions, (HelmExtensions.Validate vrn h).len =
      h.Repositories.toList.countP (fun r => decide (0 < Repository.violatedRules r)) +
        h.Charts.toList.countP (fun c => decide (0 < Chart.violatedRules vrn c)) := by
    intro h
    rw [Slice.len, helmExtensions_validate_toList, List.length_append,
      length_filterMap_eq_countP, length_filterMap_eq_countP]
    congr 2
    · funext r
      exact repository_validate_isSome_eq r
    · funext c
      exact chart_validate_isSome_eq vrn c
  have hle : ∀ {α : Type} (f : α → Nat) (l : List α),
      l.countP (fun x => decide (0 < f x)) ≤ (l.map f).sum := by
    intro α f l
    induction l with
    | nil => simp
    | cons a l ih =>
      rw [List.countP_cons, List.map_cons, List.sum_cons]
      by_cases ha : 0 < f a
      · simp only [ha, decide_True, if_true]
        omega
      · simp only [ha, decide_False]
        simp
        omega
  refine ⟨hlen he, ?_, ?_⟩
  · rw [hlen he]
    exact Nat.add_le_add (hle _ _) (hle _ _)
  · intro n c hc ht
    rw [hlen]
    simp [Slice.toList, Chart.violatedRules, hc, ht]

/-! ## Defaults -/

/-- C11: for every data directory `d`, `DefaultClusterSpec d` is a non-nil spec whose API,
storage (built from `d`), network, pod-security-policy, telemetry, images,
connectivity-tunnel, install, controller-manager and scheduler slots are non-nil; the
controller-manager and scheduler slots hold an empty map that is not nil, so `IsZero` is
true for both; the `Extensions` slot is nil. -/
theorem defaultClusterSpec_slots (K : Collaborators) (D : Defaults K) (d : String) :
    ∃ spec : ClusterSpec K,
      DefaultClusterSpec K D d = some spec ∧
      spec.API = some D.DefaultAPISpec ∧
      spec.Storage = some (D.DefaultStorageSpec d) ∧
      spec.Network = some D.DefaultNetwork ∧
      spec.PodSecurityPolicy = some D.DefaultPodSecurityPolicy ∧
      spec.Telemetry = some D.DefaultClusterTelemetry ∧
      spec.Images = some D.DefaultClusterImages ∧
      spec.Konnectivity = some D.DefaultKonnectivitySpec ∧
      spec.Install = some D.DefaultInstallSpec ∧
      (spec.API.isSome ∧ spec.Storage.isSome ∧ spec.Network.isSome ∧
        spec.PodSecurityPolicy.isSome ∧ spec.Telemetry.isSome ∧ spec.Images.isSome ∧
        spec.Konnectivity.isSome ∧ spec.Install.isSome ∧ spec.ControllerManager.isSome ∧
        spec.Scheduler.isSome) ∧
      spec.ControllerManager = some { ExtraArgs := StringMap.mk [] } ∧
      spec.Scheduler = some { ExtraArgs := StringMap.mk [] } ∧
      StringMap.mk [] ≠ StringMap.nil ∧
      (StringMap.mk []).len = 0 ∧
      ControllerManagerSpec.IsZero spec.ControllerManager = Except.ok true ∧
      SchedulerSpec.IsZero spec.Scheduler = Except.ok true ∧
      spec.Extensions = none := by
  refine ⟨_, rfl, rfl, rfl, rfl, rfl, rfl, rfl, rfl, rfl,
    ⟨rfl, rfl, rfl, rfl, rfl, rfl, rfl, rfl, rfl, rfl⟩, rfl, rfl, ?_, rfl, rfl, rfl, rfl⟩
  intro h
  cases h

/-- C14: `DefaultExtensions()` is a non-nil extensions block with a non-nil `Helm` block
whose `ConcurrencyLevel` is 5, and `ClusterExtensions.Validate` of it yields zero errors,
whatever the release-name validator is. -/
theorem defaultExtensions_valid (vrn : ReleaseNameValidator) :
    ∃ (e : ClusterExtensions) (helm : HelmExtensions),
      DefaultExtensions = some e ∧ e.Helm = some helm ∧ helm.ConcurrencyLevel = 5 ∧
      ClusterExtensions.Validate vrn DefaultExtensions = Slice.nil ∧
      (ClusterExtensions.Validate vrn DefaultExtensions).len = 0 :=
  ⟨_, _, rfl, rfl, rfl, rfl, rfl⟩

/-- C15, as stated, fails: in the value `DefaultExtensions()` returns, the repository list
and the chart list of the `Helm` block are nil, not empty non-nil slices. -/
theorem defaultExtensions_lists_nil :
    (∃ (e : ClusterExtensions) (helm : HelmExtensions),
      DefaultExtensions = some e ∧ e.Helm = some helm ∧
      helm.Repositories.isNil = true ∧ helm.Charts.isNil = true) ∧
    ¬ ∃ (e : ClusterExtensions) (helm : HelmExtensions),
      DefaultExtensions = some e ∧ e.Helm = some helm ∧
      helm.Repositories = Slice.mk [] ∧ helm.Charts = Slice.mk [] := by
  refine ⟨⟨_, _, rfl, rfl, rfl, rfl⟩, ?_⟩
  rintro ⟨e, helm, he, hh, hr, -⟩
  simp only [DefaultExtensions, Option.some.injEq] at he
  subst he
  simp only [Option.some.injEq] at hh
  subst hh
  cases hr

/-- C15, amended: in the value `DefaultExtensions()` returns, the repository list and the
chart list of the `Helm` block are nil slices; they have length zero and hold no element,
so a consumer that takes their length or ranges over them needs no nil check. -/
theorem defaultExtensions_lists_empty :
    ∃ (e : ClusterExtensions) (helm : HelmExtensions),
      DefaultExtensions = some e ∧ e.Helm = some helm ∧
      helm.Repositories = Slice.nil ∧ helm.Charts = Slice.nil ∧
      helm.Repositories.len = 0 ∧ helm.Charts.len = 0 ∧
      helm.Repositories.toList = [] ∧ helm.Charts.toList = [] :=
  ⟨_, _, rfl, rfl, rfl, rfl, rfl, rfl, rfl, rfl⟩

/-! ## configFromString -/

/-- C12: when the strict decoder, called on the zero document with the ignorable fields
`["interval"]`, succeeds, `configFromString` returns no error and a non-nil document whose
`Spec` is never nil: it is `DefaultClusterSpec dataDir` if the decoded `Spec` was nil and
the decoded `Spec` otherwise; the metadata, `DataDir` and `Status` are those the decoder
left. -/
theorem configFromString_of_decode_ok (K : Collaborators) (D : Defaults K)
    (decode : StrictDecoder K) (yml dataDir : String) (decoded : ClusterConfig K)
    (hDecode : decode yml (ClusterConfig.zero K) ["interval"] = (decoded, none)) :
    ∃ config : ClusterConfig K,
      configFromString K D decode yml dataDir = (some config, none) ∧
      config.Spec ≠ none ∧
      (decoded.Spec = none → config.Spec = DefaultClusterSpec K D dataDir) ∧
      (∀ spec, decoded.Spec = some spec → config.Spec = some spec) ∧
      config.ObjectMeta = decoded.ObjectMeta ∧
      config.TypeMeta = decoded.TypeMeta ∧
      config.DataDir = decoded.DataDir ∧
      config.Status = decoded.Status := by
  have hcfg : configFromString K D decode yml dataDir =
      (some
        (match decoded.Spec with
        | none => { decoded with Spec := DefaultClusterSpec K D dataDir }
        | some _ => decoded), none) := by
    simp only [configFromString, hDecode]
  rw [hcfg]
  cases hs : decoded.Spec with
  | none =>
    refine ⟨_, rfl, ?_, fun _ => rfl, ?_, rfl, rfl, rfl, rfl⟩
    · simp [DefaultClusterSpec]
    · intro spec h
      cases h
  | some spec0 =>
    refine ⟨_, rfl, ?_, ?_, ?_, rfl, rfl, rfl, rfl⟩
    · simp [hs]
    · intro h
      cases h
    · intro spec h
      rw [hs]
      exact h

/-- Witness of C12: an input without a spec gets the default spec, and keeps the name the
decoder set. -/
theorem configFromString_of_decode_ok_witness :
    ∃ config : ClusterConfig flagCollaborators,
      configFromString flagCollaborators flagDefaults flagDecode "name" "/data" =
        (some config, none) ∧
      config.Spec ≠ none ∧
      (({ ClusterConfig.zero flagCollaborators with
            ObjectMeta := { Name := "name", ClusterName := "" } } :
          ClusterConfig flagCollaborators).Spec = none →
        config.Spec = DefaultClusterSpec flagCollaborators flagDefaults "/data") ∧
      (∀ spec,
        ({ ClusterConfig.zero flagCollaborators with
            ObjectMeta := { Name := "name", ClusterName := "" } } :
          ClusterConfig flagCollaborators).Spec = some spec → config.Spec = some spec) ∧
      config.ObjectMeta = { Name := "name", ClusterName := "" } ∧
      config.TypeMeta = { Kind := "", APIVersion := "" } ∧
      config.DataDir = "" ∧
      config.Status = {} :=
  configFromString_of_decode_ok flagCollaborators flagDefaults flagDecode "name" "/data"
    { ClusterConfig.zero flagCollaborators with
      ObjectMeta := { Name := "name", ClusterName := "" } }
    rfl

/-- C13: when the strict decoder fails, `configFromString` returns its error together with
a non-nil document, the one the decoder left, with no default applied to its `Spec`; the
document returned is not nil whether the decoder succeeds or fails. -/
theorem configFromString_of_decode_error (K : Collaborators) (D : Defaults K)
    (decode : StrictDecoder K) (yml dataDir : String) (decoded : ClusterConfig K) (err : Error)
    (hDecode : decode yml (ClusterConfig.zero K) ["interval"] = (decoded, some err)) :
    configFromString K D decode yml dataDir = (some decoded, some err) ∧
    (∀ (decode0 : StrictDecoder K) (yml0 dataDir0 : String),
      (configFromString K D decode0 yml0 dataDir0).1 ≠ none) := by
  constructor
  · simp only [configFromString, hDecode]
  · intro decode0 yml0 dataDir0
    simp only [configFromString]
    generalize decode0 yml0 (ClusterConfig.zero K) ["interval"] = r
    obtain ⟨cfg, e⟩ := r
    cases e <;> simp

/-- Witness of C13: the input `"bad"` gives the decode error and the zero document, whose
`Spec` stays nil. -/
theorem configFromString_of_decode_error_witness :
    configFromString flagCollaborators flagDefaults flagDecode "bad" "/data" =
        (some (ClusterConfig.zero flagCollaborators), some (errors.New "decode error")) ∧
      (∀ (decode0 : StrictDecoder flagCollaborators) (yml0 dataDir0 : String),
        (configFromString flagCollaborators flagDefaults decode0 yml0 dataDir0).1 ≠ none) :=
  configFromString_of_decode_error flagCollaborators flagDefaults flagDecode "bad" "/data"
    (ClusterConfig.zero flagCollaborators) (errors.New "decode error") rfl

/-! ## Defaulting, then validating -/

theorem slice_append_of_toList_eq_nil {α : Type} (s e : Slice α) (he : e.toList = []) :
    s.append e = s := by
  unfold Slice.append
  rw [he]

/-- C16: for every data directory `d`, `ClusterConfig.Validate` of `DefaultClusterConfig d`,
whose `Spec` is `DefaultClusterSpec d`, returns the nil list, given that the validator of
each other file returns no error on the default value of its slot; the controller-manager,
scheduler and install validators and the validator of the nil `Extensions` slot contribute
no error. -/
theorem defaultClusterConfig_validate_nil (K : Collaborators) (D : Defaults K)
    (vrn : ReleaseNameValidator) (d : String)
    (hAPI : ∃ e, K.validateAPISpec (some D.DefaultAPISpec) = Except.ok e ∧ e.toList = [])
    (hStorage : ∃ e,
      K.validateStorageSpec (some (D.DefaultStorageSpec d)) = Except.ok e ∧ e.toList = [])
    (hNetwork : ∃ e, K.validateNetwork (some D.DefaultNetwork) = Except.ok e ∧ e.toList = [])
    (hPSP : ∃ e,
      K.validatePodSecurityPolicy (some D.DefaultPodSecurityPolicy) = Except.ok e ∧
        e.toList = [])
    (hWorker : ∃ e, K.validateWorkerProfiles D.nilWorkerProfiles = Except.ok e ∧ e.toList = [])
    (hTelemetry : ∃ e,
      K.validateClusterTelemetry (some D.DefaultClusterTelemetry) = Except.ok e ∧
        e.toList = [])
    (hKonnectivity : ∃ e,
      K.validateKonnectivitySpec (some D.DefaultKonnectivitySpec) = Except.ok e ∧
        e.toList = []) :
    ∃ (c : ClusterConfig K) (spec : ClusterSpec K),
      DefaultClusterConfig K D d = some c ∧
      c.Spec = some spec ∧
      DefaultClusterSpec K D d = some spec ∧
      ClusterConfig.Validate K vrn c = Except.ok Slice.nil ∧
      ControllerManagerSpec.Validate spec.ControllerManager = Slice.nil ∧
      SchedulerSpec.Validate spec.Scheduler = Slice.nil ∧
      InstallSpec.Validate spec.Install = Slice.nil ∧
      ClusterExtensions.Validate vrn spec.Extensions = Slice.nil := by
  obtain ⟨eAPI, hAPI, hAPI0⟩ := hAPI
  obtain ⟨eStorage, hStorage, hStorage0⟩ := hStorage
  obtain ⟨eNetwork, hNetwork, hNetwork0⟩ := hNetwork
  obtain ⟨ePSP, hPSP, hPSP0⟩ := hPSP
  obtain ⟨eWorker, hWorker, hWorker0⟩ := hWorker
  obtain ⟨eTelemetry, hTelemetry, hTelemetry0⟩ := hTelemetry
  obtain ⟨eKonnectivity, hKonnectivity, hKonnectivity0⟩ := hKonnectivity
  refine ⟨_, _, rfl, rfl, rfl, ?_, rfl, rfl, rfl, rfl⟩
  rw [clusterConfig_validate_of_ok K vrn _ _ eAPI eStorage eNetwork ePSP eWorker eTelemetry
    eKonnectivity rfl hAPI hStorage hNetwork hPSP hWorker hTelemetry hKonnectivity]
  rw [slice_append_of_toList_eq_nil _ eKonnectivity hKonnectivity0]
  rw [slice_append_of_toList_eq_nil _ (ClusterExtensions.Validate vrn none) rfl]
  rw [slice_append_of_toList_eq_nil _ (InstallSpec.Validate (some D.DefaultInstallSpec)) rfl]
  rw [slice_append_of_toList_eq_nil _ eTelemetry hTelemetry0,
    slice_append_of_toList_eq_nil _ eWorker hWorker0,
    slice_append_of_toList_eq_nil _ ePSP hPSP0,
    slice_append_of_toList_eq_nil _ eNetwork hNetwork0,
    slice_append_of_toList_eq_nil _ eStorage hStorage0]
  rw [slice_append_of_toList_eq_nil _
    (SchedulerSpec.Validate (some { ExtraArgs := StringMap.mk [] })) rfl]
  rw [slice_append_of_toList_eq_nil _
    (ControllerManagerSpec.Validate (some { ExtraArgs := StringMap.mk [] })) rfl]
  rw [slice_append_of_toList_eq_nil _ eAPI hAPI0]

/-- Witness of C16 at the example collaborators, whose defaults are all valid. -/
theorem defaultClusterConfig_validate_nil_witness :
    ∃ (c : ClusterConfig flagCollaborators) (spec : ClusterSpec flagCollaborators),
      DefaultClusterConfig flagCollaborators flagDefaults "/var/lib/k0s" = some c ∧
      c.Spec = some spec ∧
      DefaultClusterSpec flagCollaborators flagDefaults "/var/lib/k0s" = some spec ∧
      ClusterConfig.Validate flagCollaborators chartutil.ValidateReleaseName c =
        Except.ok Slice.nil ∧
      ControllerManagerSpec.Validate spec.ControllerManager = Slice.nil ∧
      SchedulerSpec.Validate spec.Scheduler = Slice.nil ∧
      InstallSpec.Validate spec.Install = Slice.nil ∧
      ClusterExtensions.Validate chartutil.ValidateReleaseName spec.Extensions = Slice.nil :=
  defaultClusterConfig_validate_nil flagCollaborators flagDefaults
    chartutil.ValidateReleaseName "/var/lib/k0s"
    ⟨_, rfl, rfl⟩ ⟨_, rfl, rfl⟩ ⟨_, rfl, rfl⟩ ⟨_, rfl, rfl⟩ ⟨_, rfl, rfl⟩ ⟨_, rfl, rfl⟩
    ⟨_, rfl, rfl⟩

/-! ## UnmarshalJSON -/

theorem unmarshalJSON_eq (K : Collaborators) (D : Defaults K) (unmarshal : JSONDecoder K)
    (c : ClusterConfig K) (data : String) :
    ClusterConfig.UnmarshalJSON K D unmarshal c data =
      unmarshal data
        { ObjectMeta :=
            { Name := c.ObjectMeta.Name
              ClusterName :=
                if c.ObjectMeta.ClusterName = "" then "k0s" else c.ObjectMeta.ClusterName }
          TypeMeta :=
            { Kind := if c.TypeMeta.Kind = "" then "ClusterConfig" else c.TypeMeta.Kind
              APIVersion := c.TypeMeta.APIVersion }
          DataDir := c.DataDir
          Spec := DefaultClusterSpec K D c.DataDir
          Status := c.Status } := by
  have hres : ∀ handed : ClusterConfig K,
      (match unmarshal data handed with
        | (c0, err) =>
          match err with
          | some err => (c0, some err)
          | none => (c0, none)) = unmarshal data handed := by
    intro handed
    generalize unmarshal data handed = r
    obtain ⟨c0, e⟩ := r
    cases e <;> rfl
  by_cases hk : c.TypeMeta.Kind = "" <;> by_cases hn : c.ObjectMeta.ClusterName = "" <;>
    simp only [ClusterConfig.UnmarshalJSON, hk, hn, if_true, if_false] <;>
    exact hres _

/-- C18: `UnmarshalJSON` hands to the decoder the receiver with `Kind` set to
`"ClusterConfig"` if it was empty, the cluster name set to `"k0s"` if it was empty, and
`Spec` set to `DefaultClusterSpec` of the `DataDir` the receiver had before the decode,
the other fields as they were; what it returns is what the decoder leaves and its error.
Hence a decoder that leaves `Kind`, the cluster name and `Spec` as handed gives a result
with exactly these defaults, and whatever the decoder sets in them is in the result. -/
theorem unmarshalJSON_defaults_before_decode (K : Collaborators) (D : Defaults K)
    (unmarshal : JSONDecoder K) (c : ClusterConfig K) (data : String) :
    ∃ handed : ClusterConfig K,
      ClusterConfig.UnmarshalJSON K D unmarshal c data = unmarshal data handed ∧
      handed.TypeMeta.Kind = (if c.TypeMeta.Kind = "" then "ClusterConfig" else c.TypeMeta.Kind) ∧
      handed.ObjectMeta.ClusterName =
        (if c.ObjectMeta.ClusterName = "" then "k0s" else c.ObjectMeta.ClusterName) ∧
      handed.Spec = DefaultClusterSpec K D c.DataDir ∧
      handed.ObjectMeta.Name = c.ObjectMeta.Name ∧
      handed.TypeMeta.APIVersion = c.TypeMeta.APIVersion ∧
      handed.DataDir = c.DataDir ∧
      handed.Status = c.Status ∧
      ((unmarshal data handed).1.TypeMeta.Kind = handed.TypeMeta.Kind →
        (ClusterConfig.UnmarshalJSON K D unmarshal c data).1.TypeMeta.Kind =
          (if c.TypeMeta.Kind = "" then "ClusterConfig" else c.TypeMeta.Kind)) ∧
      ((unmarshal data handed).1.ObjectMeta.ClusterName = handed.ObjectMeta.ClusterName →
        (ClusterConfig.UnmarshalJSON K D unmarshal c data).1.ObjectMeta.ClusterName =
          (if c.ObjectMeta.ClusterName = "" then "k0s" else c.ObjectMeta.ClusterName)) ∧
      ((unmarshal data handed).1.Spec = handed.Spec →
        (ClusterConfig.UnmarshalJSON K D unmarshal c data).1.Spec =
          DefaultClusterSpec K D c.DataDir) ∧
      (ClusterConfig.UnmarshalJSON K D unmarshal c data).1.TypeMeta.Kind =
        (unmarshal data handed).1.TypeMeta.Kind ∧
      (ClusterConfig.UnmarshalJSON K D unmarshal c data).1.ObjectMeta.ClusterName =
        (unmarshal data handed).1.ObjectMeta.ClusterName ∧
      (ClusterConfig.UnmarshalJSON K D unmarshal c data).1.Spec =
        (unmarshal data handed).1.Spec := by
  refine ⟨_, unmarshalJSON_eq K D unmarshal c data, rfl, rfl, rfl, rfl, rfl, rfl, rfl,
    ?_, ?_, ?_, ?_, ?_, ?_⟩
  · intro h
    rw [unmarshalJSON_eq, h]
  · intro h
    rw [unmarshalJSON_eq, h]
  · intro h
    rw [unmarshalJSON_eq, h]
  · rw [unmarshalJSON_eq]
  · rw [unmarshalJSON_eq]
  · rw [unmarshalJSON_eq]

/-! ## HelmExtensions.Validate: order and independence -/

theorem repositoriesSettings_validate_toList (rs : RepositoriesSettings) :
    (RepositoriesSettings.Validate rs).toList = rs.toList.filterMap Repository.Validate := by
  rw [repositoriesSettings_validate_eq]
  split
  · next h => rw [h]; rfl
  · rfl

theorem chartsSettings_validate_toList (vrn : ReleaseNameValidator) (cs : ChartsSettings) :
    (ChartsSettings.Validate vrn cs).toList = cs.toList.filterMap (Chart.Validate vrn) := by
  rw [chartsSettings_validate_eq]
  split
  · next h => rw [h]; rfl
  · rfl

/-- C19: `HelmExtensions.Validate h` is the errors of `RepositoriesSettings.Validate` of the
repositories followed by the errors of `ChartsSettings.Validate` of the charts: every
repository error comes before every chart error, each group in the order of its list, and
the number of errors is the number of invalid repositories plus the number of invalid
charts. -/
theorem helmExtensions_validate_repositories_then_charts (vrn : ReleaseNameValidator)
    (h : HelmExtensions) :
    HelmExtensions.Validate vrn h =
      (Slice.nil.append (RepositoriesSettings.Validate h.Repositories)).append
        (ChartsSettings.Validate vrn h.Charts) ∧
    (HelmExtensions.Validate vrn h).toList =
      (RepositoriesSettings.Validate h.Repositories).toList ++
        (ChartsSettings.Validate vrn h.Charts).toList ∧
    (HelmExtensions.Validate vrn h).toList =
      h.Repositories.toList.filterMap Repository.Validate ++
        h.Charts.toList.filterMap (Chart.Validate vrn) ∧
    (HelmExtensions.Validate vrn h).len =
      h.Repositories.toList.countP (fun r => (Repository.Validate r).isSome) +
        h.Charts.toList.countP (fun c => (Chart.Validate vrn c).isSome) := by
  refine ⟨?_, ?_, helmExtensions_validate_toList vrn h, ?_⟩
  · rw [helmExtensions_validate_eq, repositoriesSettings_validate_eq,
      chartsSettings_validate_eq]
    generalize h.Repositories.toList.filterMap Repository.Validate = rErrs
    generalize h.Charts.toList.filterMap (Chart.Validate vrn) = cErrs
    cases rErrs <;> cases cErrs <;> simp [Slice.append, Slice.toList]
  · rw [helmExtensions_validate_toList, repositoriesSettings_validate_toList,
      chartsSettings_validate_toList]
  · rw [Slice.len, helmExtensions_validate_toList, List.length_append,
      length_filterMap_eq_countP, length_filterMap_eq_countP]

/-- C20: validation does not read the concurrency level: for every `HelmExtensions` value
and every integer `n`, zero and the negative ones included, `HelmExtensions.Validate` gives
the same result with `ConcurrencyLevel` replaced by `n`; and `ClusterExtensions.Validate`
gives the same result whatever the deprecated `Storage` field holds. -/
theorem validate_ignores_concurrencyLevel_and_storage (vrn : ReleaseNameValidator)
    (h : HelmExtensions) (n : Int) (e : ClusterExtensions) (storage : Option StorageExtension) :
    HelmExtensions.Validate vrn { h with ConcurrencyLevel := n } = HelmExtensions.Validate vrn h ∧
    HelmExtensions.Validate vrn { h with ConcurrencyLevel := 0 } = HelmExtensions.Validate vrn h ∧
    HelmExtensions.Validate vrn { h with ConcurrencyLevel := -1 } =
      HelmExtensions.Validate vrn h ∧
    ClusterExtensions.Validate vrn (some { e with Storage := storage }) =
      ClusterExtensions.Validate vrn (some e) ∧
    ClusterExtensions.Validate vrn
        (some { e with Helm := e.Helm.map (fun helm => { helm with ConcurrencyLevel := n }) }) =
      ClusterExtensions.Validate vrn (some e) := by
  refine ⟨rfl, rfl, rfl, rfl, ?_⟩
  cases hh : e.Helm with
  | none => simp [ClusterExtensions.Validate, hh]
  | some helm =>
    simp only [ClusterExtensions.Validate, hh, Option.map_some']
    rfl

/-! ## The release-name syntax -/

theorem segments_ne_nil (l : List Char) : chartutil.segments l ≠ [] := by
  cases l with
  | nil => simp [chartutil.segments]
  | cons c cs =>
    rw [chartutil.segments]
    split
    · simp
    · split <;> simp

theorem intercalate_cons_cons_head (sep : List Char) (c : Char) (s : List Char)
    (ss : List (List Char)) :
    List.intercalate sep ((c :: s) :: ss) = c :: List.intercalate sep (s :: ss) := by
  cases ss <;> simp [List.intercalate, List.intersperse]

/-- Joining the segments of a name with dots gives the name back. -/
theorem intercalate_segments (l : List Char) :
    List.intercalate ['.'] (chartutil.segments l) = l := by
  induction l with
  | nil => simp [chartutil.segments, List.intercalate]
  | cons c cs ih =>
    obtain ⟨s, ss, hs⟩ := List.exists_cons_of_ne_nil (segments_ne_nil cs)
    rw [chartutil.segments]
    by_cases hc : c = '.'
    · rw [if_pos hc, hs]
      rw [hs] at ih
      have hjoin : List.intercalate ['.'] ([] :: s :: ss) =
          '.' :: List.intercalate ['.'] (s :: ss) := by
        simp [List.intercalate, List.intersperse]
      rw [hjoin, ih, hc]
    · rw [if_neg hc, hs]
      rw [hs] at ih
      simp only []
      rw [intercalate_cons_cons_head, ih]

/-- A character of a name other than the dot lies in one of its segments. -/
theorem mem_segments_of_mem (ch : Char) (l : List Char) (hmem : ch ∈ l) (hdot : ch ≠ '.') :
    ∃ seg ∈ chartutil.segments l, ch ∈ seg := by
  induction l with
  | nil => cases hmem
  | cons c cs ih =>
    obtain ⟨s, ss, hs⟩ := List.exists_cons_of_ne_nil (segments_ne_nil cs)
    rw [chartutil.segments]
    by_cases hc : c = '.'
    · rw [if_pos hc]
      rcases List.mem_cons.mp hmem with h | h
      · exact absurd (h.trans hc) hdot
      · obtain ⟨seg, hseg, hch⟩ := ih h
        exact ⟨seg, List.mem_cons_of_mem _ hseg, hch⟩
    · rw [if_neg hc, hs]
      simp only []
      rcases List.mem_cons.mp hmem with h | h
      · exact ⟨c :: s, List.mem_cons_self _ _, by rw [h]; exact List.mem_cons_self _ _⟩
      · obtain ⟨seg, hseg, hch⟩ := ih h
        rw [hs] at hseg
        rcases List.mem_cons.mp hseg with h1 | h1
        · exact ⟨c :: s, List.mem_cons_self _ _, List.mem_cons_of_mem _ (h1 ▸ hch)⟩
        · exact ⟨seg, List.mem_cons_of_mem _ h1, hch⟩

/-- What `isSegment` checks: the segment is not empty, its characters are lowercase
alphanumerics or hyphens, and its first and its last character are alphanumerics. -/
theorem isSegment_spec (seg : List Char) (h : chartutil.isSegment seg = true) :
    seg ≠ [] ∧
    (∀ ch ∈ seg, chartutil.isLowerAlnum ch = true ∨ ch = '-') ∧
    (∃ a rest, seg = a :: rest ∧ chartutil.isLowerAlnum a = true) ∧
    (∃ front z, seg = front ++ [z] ∧ chartutil.isLowerAlnum z = true) := by
  simp only [chartutil.isSegment, Bool.and_eq_true, List.all_eq_true] at h
  obtain ⟨⟨hall, hhead⟩, hlast⟩ := h
  have hne : seg ≠ [] := by
    intro hnil
    subst hnil
    simp at hhead
  refine ⟨hne, ?_, ?_, ?_⟩
  · intro ch hch
    have := hall ch hch
    simpa [chartutil.isSegmentChar] using this
  · cases seg with
    | nil => exact absurd rfl hne
    | cons a rest =>
      refine ⟨a, rest, rfl, ?_⟩
      simpa using hhead
  · obtain ⟨front, z, hz⟩ := (List.eq_nil_or_concat seg).resolve_left hne
    rw [List.concat_eq_append] at hz
    subst hz
    refine ⟨front, z, rfl, ?_⟩
    simpa using hlast

theorem isLowerAlnum_iff (ch : Char) :
    chartutil.isLowerAlnum ch = true ↔ ('a' ≤ ch ∧ ch ≤ 'z') ∨ ('0' ≤ ch ∧ ch ≤ '9') := by
  simp only [chartutil.isLowerAlnum, Bool.or_eq_true, Bool.and_eq_true, decide_eq_true_eq,
    Char.le_def, UInt32.le_def, BitVec.le_def]
  rfl

theorem validateReleaseName_eq_none_iff (name : String) :
    chartutil.ValidateReleaseName name = none ↔
      name ≠ "" ∧ name.length ≤ 53 ∧ chartutil.validName name = true := by
  unfold chartutil.ValidateReleaseName chartutil.maxReleaseNameLen
  by_cases hn : name = ""
  · simp [hn]
  · by_cases hl : name.length > 53
    · simp [hn, hl]
    · by_cases hv : chartutil.validName name = true
      · simp [hn, hl, hv]
        omega
      · simp [hn, hl, hv]

theorem chart_validate_none_name (vrn : ReleaseNameValidator) (c : Chart)
    (h : Chart.Validate vrn c = none) : vrn c.Name = none := by
  unfold Chart.Validate at h
  by_cases hn : c.Name = ""
  · simp [hn] at h
  · cases hv : vrn c.Name with
    | none => rfl
    | some err => simp [hn, hv] at h

theorem string_length_pos_of_ne_empty (name : String) (h : name ≠ "") : 1 ≤ name.length := by
  cases name with
  | mk data =>
    cases data with
    | nil => exact absurd rfl h
    | cons a rest => simp [String.length]

/-- A name that holds a character that is neither a segment character nor the dot is not
of the release-name syntax. -/
theorem validName_false_of_mem (name : String) (ch : Char) (hmem : ch ∈ name.data)
    (hseg : chartutil.isSegmentChar ch = false) (hdot : ch ≠ '.') :
    chartutil.validName name = false := by
  obtain ⟨seg, hin, hch⟩ := mem_segments_of_mem ch name.data hmem hdot
  cases hv : chartutil.validName name with
  | false => rfl
  | true =>
    simp only [chartutil.validName, List.all_eq_true] at hv
    have hs := hv seg hin
    simp only [chartutil.isSegment, Bool.and_eq_true, List.all_eq_true] at hs
    have := hs.1.1 ch hch
    rw [hseg] at this
    cases this

theorem not_segmentChar_of_isUpper (ch : Char) (h : ch.isUpper = true) :
    chartutil.isSegmentChar ch = false ∧ ch ≠ '.' := by
  simp only [Char.isUpper, Bool.and_eq_true, decide_eq_true_eq, ge_iff_le, UInt32.le_def,
    BitVec.le_def] at h
  have h1 : 65 ≤ ch.toNat := h.1
  have h2 : ch.toNat ≤ 90 := h.2
  constructor
  · cases hs : chartutil.isSegmentChar ch with
    | false => rfl
    | true =>
      simp only [chartutil.isSegmentChar, chartutil.isLowerAlnum, Bool.or_eq_true,
        Bool.and_eq_true, decide_eq_true_eq] at hs
      rcases hs with (hs | hs) | hs
      · omega
      · omega
      · subst hs
        revert h1
        decide
  · intro hd
    subst hd
    revert h1
    decide

/-- C17: with the release-name validator of the Helm library, a chart that validates
without error has a `Name` of 1 to 53 characters that is a dot-separated sequence of
segments, each segment not empty, made of lowercase alphanumerics and hyphens, and
starting and ending with an alphanumeric; a chart whose `Name` has 54 characters or more,
or holds an uppercase letter, an underscore or `!`, such as `"BAD_NAME!"`, is rejected. -/
theorem chart_validate_name_release_syntax (c : Chart) :
    (Chart.Validate chartutil.ValidateReleaseName c = none →
      1 ≤ c.Name.length ∧ c.Name.length ≤ 53 ∧
      ∃ segs : List (List Char),
        segs ≠ [] ∧ c.Name.data = List.intercalate ['.'] segs ∧
        ∀ seg ∈ segs,
          seg ≠ [] ∧
          (∀ ch ∈ seg, (('a' ≤ ch ∧ ch ≤ 'z') ∨ ('0' ≤ ch ∧ ch ≤ '9')) ∨ ch = '-') ∧
          (∃ a rest, seg = a :: rest ∧ (('a' ≤ a ∧ a ≤ 'z') ∨ ('0' ≤ a ∧ a ≤ '9'))) ∧
          (∃ front z, seg = front ++ [z] ∧ (('a' ≤ z ∧ z ≤ 'z') ∨ ('0' ≤ z ∧ z ≤ '9')))) ∧
    (54 ≤ c.Name.length → Chart.Validate chartutil.ValidateReleaseName c ≠ none) ∧
    (∀ ch ∈ c.Name.data, (ch.isUpper = true ∨ ch = '_' ∨ ch = '!') →
      Chart.Validate chartutil.ValidateReleaseName c ≠ none) ∧
    (c.Name = "BAD_NAME!" →
      Chart.Validate chartutil.ValidateReleaseName c = some chartutil.errInvalidName) := by
  refine ⟨?_, ?_, ?_, ?_⟩
  · intro h
    have hv := (validateReleaseName_eq_none_iff c.Name).mp (chart_validate_none_name _ c h)
    obtain ⟨hne, hlen, hvalid⟩ := hv
    refine ⟨string_length_pos_of_ne_empty _ hne, hlen, chartutil.segments c.Name.data,
      segments_ne_nil _, (intercalate_segments _).symm, ?_⟩
    intro seg hseg
    simp only [chartutil.validName, List.all_eq_true] at hvalid
    obtain ⟨h1, h2, ⟨a, rest, h3, h3a⟩, ⟨front, z, h4, h4z⟩⟩ := isSegment_spec seg (hvalid seg hseg)
    refine ⟨h1, ?_, ⟨a, rest, h3, (isLowerAlnum_iff a).mp h3a⟩,
      ⟨front, z, h4, (isLowerAlnum_iff z).mp h4z⟩⟩
    intro ch hch
    rcases h2 ch hch with h | h
    · exact Or.inl ((isLowerAlnum_iff ch).mp h)
    · exact Or.inr h
  · intro hlen h
    have hv := (validateReleaseName_eq_none_iff c.Name).mp (chart_validate_none_name _ c h)
    omega
  · intro ch hmem hbad h
    have hv := (validateReleaseName_eq_none_iff c.Name).mp (chart_validate_none_name _ c h)
    have hfalse : chartutil.validName c.Name = false := by
      rcases hbad with hu | hu | hu
      · exact validName_false_of_mem _ ch hmem (not_segmentChar_of_isUpper ch hu).1
          (not_segmentChar_of_isUpper ch hu).2
      · subst hu
        exact validName_false_of_mem _ '_' hmem (by decide) (by decide)
      · subst hu
        exact validName_false_of_mem _ '!' hmem (by decide) (by decide)
    rw [hfalse] at hv
    exact absurd hv.2.2 (by decide)
  · intro hname
    have hv : chartutil.ValidateReleaseName "BAD_NAME!" = some chartutil.errInvalidName := by
      decide
    have hne : ("BAD_NAME!" : String) ≠ "" := by decide
    unfold Chart.Validate
    rw [hname, if_neg hne, hv]

end v1beta1
